import Mathlib

/-!
Shallow embedding of `info.go` from the ebpf package: metadata retrieval for
maps ("tables") and programs, with a structured-query primary path and a
textual `/proc/self/fdinfo` fallback parsed by `scanFdInfoReader`.

Machine integers (`uint32`, `uint64`) are modelled as `Nat`; where the Go
code can overflow a destination (`fmt.Sscanln` into a `uint32`) the bound
`2^32` appears explicitly.  The structured-query transport
(`bpfGetMapInfoByFD` / `bpfGetProgInfoByFD`) is the external collaborator the
spec calls `rawQuery`; it is passed in as a parameter (an `Except` result for
maps, a buffer-length-indexed function for programs), so all theorems
quantify over its behaviour.  Errors are a single inductive `Err`; the Go
`errors.Is(err, syscall.EINVAL)` test becomes equality with `Err.einval`, and
`errors.Is(err, errMissingFields)` equality with `Err.missingFields`.
-/

/-- Error taxonomy of the retrieval code: the distinguished invalid-argument
transport failure, any other transport failure, the scanner missing-fields
condition (`errMissingFields`), a parse failure naming the field, and the
unsupported-feature error carrying a minimum kernel version. -/
inductive Err where
  | einval : Err
  | transport (code : Nat) : Err
  | missingFields : Err
  | parseField (name : String) : Err
  | unsupported (feature : String) (major minor patch : Nat) : Err
  deriving DecidableEq, Repr

/-- Space characters recognised by the fmt scanner, restricted to the ASCII
ones that can occur on a line of fdinfo text (a line never contains a
newline; exotic Unicode spaces are not modelled). -/
def isScanSpace (c : Char) : Bool :=
  c = ' ' || c = '\t' || c = Char.ofNat 11 || c = Char.ofNat 12 || c = '\r'

/-- Digit predicate for the integer bases the fmt verb v accepts. -/
def isBaseDigit (base : Nat) (c : Char) : Bool :=
  if base = 16 then c.isDigit || ('a' ≤ c && c ≤ 'f') || ('A' ≤ c && c ≤ 'F')
  else if base = 10 then c.isDigit
  else if base = 8 then '0' ≤ c && c ≤ '7'
  else c = '0' || c = '1'

/-- Numeric value of a digit character. -/
def digitVal (c : Char) : Nat :=
  if c.isDigit then c.toNat - '0'.toNat
  else if 'a' ≤ c && c ≤ 'f' then c.toNat - 'a'.toNat + 10
  else c.toNat - 'A'.toNat + 10

/-- Shared tail of the single-operand unsigned scan: take the run of digits
of the given base, require a digit when the token so far has none
(`needDigit`), require that everything after the run is trailing space (the
Sscanln requirement that a newline or EOF follow the final item), and
enforce the 32-bit range of the destination. -/
def finishNum (base : Nat) (cs : List Char) (needDigit : Bool) : Option Nat :=
  let ds := cs.takeWhile (isBaseDigit base)
  let after := cs.dropWhile (isBaseDigit base)
  if ds.isEmpty && needDigit then none
  else if !after.all isScanSpace then none
  else
    let v := ds.foldl (fun a c => a * base + digitVal c) 0
    if v < 4294967296 then some v else none

/-- Model of `fmt.Sscanln(s, p)` for `p` a pointer to a 32-bit unsigned
destination: skip leading space, then scan one integer token with the
base-inferring rules of the verb v (`0x`/`0X` hexadecimal, `0b`/`0B` binary,
`0o`/`0O` octal, a bare leading `0` octal, otherwise decimal; digit-group
underscores are not modelled), and fail unless only space follows. -/
def sscanlnNum (cs : List Char) : Option Nat :=
  match cs.dropWhile isScanSpace with
  | '0' :: c :: rest =>
    if c = 'x' || c = 'X' then finishNum 16 rest true
    else if c = 'b' || c = 'B' then finishNum 2 rest true
    else if c = 'o' || c = 'O' then finishNum 8 rest true
    else finishNum 8 (c :: rest) false
  | cs1 => finishNum 10 cs1 true

/-- Model of `fmt.Sscanln(s, p)` for `p` a pointer to a string destination:
skip leading space, take the maximal run of non-space characters as the
token (empty means EOF, an error), and fail unless only space follows. -/
def sscanlnStr (cs : List Char) : Option String :=
  let cs1 := cs.dropWhile isScanSpace
  let tok := cs1.takeWhile (fun c => !isScanSpace c)
  let rest := cs1.dropWhile (fun c => !isScanSpace c)
  if tok.isEmpty then none
  else if rest.all isScanSpace then some (String.mk tok) else none

/-- A destination slot of the field map: a numeric (`uint32`-backed) or a
string destination, carrying its current value.  The Go code holds pointers
in a `map[string]interface{}`; here the slot value is updated functionally. -/
inductive FieldVal where
  | num (v : Nat) : FieldVal
  | str (v : String) : FieldVal
  deriving DecidableEq, Repr

/-- Dispatch of the single-operand `fmt.Sscanln` on the dynamic type of the
destination slot, as the reflection-driven scan does. -/
def sscanln1 : FieldVal → String → Option FieldVal
  | .num _, s => (sscanlnNum s.data).map FieldVal.num
  | .str _, s => (sscanlnStr s.data).map FieldVal.str

/-- Model of `strings.SplitN(s, "\t", 2)` followed by the length-2 check:
split at the first tab, or report none (the continue branch) when the line
has no tab. -/
def splitFirstTab (s : String) : Option (String × String) :=
  if s.data.contains '\t' then
    some (String.mk (s.data.takeWhile (fun c => c != '\t')),
          String.mk ((s.data.dropWhile (fun c => c != '\t')).tail))
  else none

/-- Model of `strings.TrimSuffix(s, ":")`. -/
def trimColon (s : String) : String :=
  if s.data.getLast? = some ':' then String.mk s.data.dropLast else s

/-- Key and value side of one fdinfo line, when the line holds a tab. -/
def splitLine (s : String) : Option (String × String) :=
  match splitFirstTab s with
  | none => none
  | some (k, v) => some (trimColon k, v)

/-- The requested-field map: association list from field name to its
destination slot.  Callers pass distinct keys, as a Go map has. -/
abbrev Fields := List (String × FieldVal)

/-- Lookup of a field name, the map-index operation of the Go code. -/
def lookupF (fs : Fields) (k : String) : Option FieldVal :=
  match fs with
  | [] => none
  | (k0, v0) :: rest => if k0 = k then some v0 else lookupF rest k

/-- Writing through the looked-up pointer: replace the value stored under a
key, keeping every other entry. -/
def updateF (fs : Fields) (k : String) (v : FieldVal) : Fields :=
  fs.map (fun p => if p.1 = k then (p.1, v) else p)

/-- The line loop of `scanFdInfoReader`: per line, split at the first tab
(no tab: skip), trim a trailing colon from the key, skip unknown keys, scan
the value side into the slot (failure is fatal, naming the field), and count
every successful scan. -/
def scanLines : List String → Fields → Nat → Except Err (Fields × Nat)
  | [], fs, scanned => .ok (fs, scanned)
  | l :: rest, fs, scanned =>
    match splitLine l with
    | none => scanLines rest fs scanned
    | some (name, value) =>
      match lookupF fs name with
      | none => scanLines rest fs scanned
      | some slot =>
        match sscanln1 slot value with
        | none => .error (.parseField name)
        | some v => scanLines rest (updateF fs name v) (scanned + 1)

/-- Model of `scanFdInfoReader`: run the line loop over the whole stream,
then require the number of successful scans to equal the number of requested
fields, failing with `errMissingFields` otherwise. -/
def scanFdInfoReader (lines : List String) (fields : Fields) : Except Err Fields :=
  match scanLines lines fields 0 with
  | .error e => .error e
  | .ok (fs, scanned) =>
    if scanned = fields.length then .ok fs else .error Err.missingFields

/-- Trailing carriage-return stripping of `bufio.ScanLines`. -/
def stripCR (s : String) : String :=
  if s.data.getLast? = some '\r' then String.mk s.data.dropLast else s

/-- Newline segments of a character stream: the pieces between newline
characters, including a final empty segment when the text ends with one. -/
def splitNl : List Char → List (List Char)
  | [] => [[]]
  | c :: rest =>
    if c = '\n' then [] :: splitNl rest
    else
      match splitNl rest with
      | [] => [[c]]
      | t :: ts => (c :: t) :: ts

/-- Split a whole text into the lines `bufio.Scanner` yields: newline
separated, a final newline producing no extra empty line, each line with a
trailing carriage return removed. -/
def toLines (s : String) : List String :=
  let parts := splitNl s.data
  let parts := if parts.getLast? = some [] then parts.dropLast else parts
  parts.map (fun cs => stripCR (String.mk cs))

/-- Map metadata record.  The Go `MapType`/`MapID` named `uint32` types are
modelled as `Nat`; the unexported `id` keeps its lower-case name. -/
structure MapInfo where
  type : Nat
  id : Nat
  KeySize : Nat
  ValueSize : Nat
  MaxEntries : Nat
  Flags : Nat
  Name : String
  deriving DecidableEq, Repr

/-- The field map `newMapInfoFromProc` hands to the scanner, with zero-value
destinations (the fields of a fresh `MapInfo`). -/
def mapFields : Fields :=
  [("map_type", .num 0), ("key_size", .num 0), ("value_size", .num 0),
   ("max_entries", .num 0), ("map_flags", .num 0)]

/-- Read a numeric destination back out of the scanned field map. -/
def getNum (fs : Fields) (k : String) : Nat :=
  match lookupF fs k with
  | some (.num v) => v
  | _ => 0

/-- Read a string destination back out of the scanned field map. -/
def getStr (fs : Fields) (k : String) : String :=
  match lookupF fs k with
  | some (.str v) => v
  | _ => ""

/-- Model of `newMapInfoFromProc`: scan the fdinfo text for the five map
fields; any scanner error propagates unchanged.  The identifier and name
stay at their zero values, as in the Go zero-valued `MapInfo`. -/
def newMapInfoFromProc (lines : List String) : Except Err MapInfo :=
  match scanFdInfoReader lines mapFields with
  | .error e => .error e
  | .ok fs => .ok {
      type := getNum fs "map_type", id := 0,
      KeySize := getNum fs "key_size", ValueSize := getNum fs "value_size",
      MaxEntries := getNum fs "max_entries", Flags := getNum fs "map_flags",
      Name := "" }

/-- Raw structured record of the map query, the `bpf_map_info` layout: all
numeric fields as `Nat`, the name as the raw byte array. -/
structure bpf_map_info where
  map_type : Nat
  id : Nat
  key_size : Nat
  value_size : Nat
  max_entries : Nat
  map_flags : Nat
  name : List Nat
  deriving DecidableEq, Repr

/-- Model of `internal.CString`: the bytes up to the first NUL, as text. -/
def cString (bytes : List Nat) : String :=
  String.mk ((bytes.takeWhile (fun b => b != 0)).map (fun b => Char.ofNat b))

/-- Model of `newMapInfoFromFd`.  The structured-query transport
`bpfGetMapInfoByFD` is the external collaborator; its outcome for this
handle is the `query` argument, and the fdinfo text backing the fallback is
`fdinfoLines`.  An invalid-argument failure selects the fallback, any other
failure propagates, and success builds the record from the raw fields. -/
def newMapInfoFromFd (query : Except Err bpf_map_info) (fdinfoLines : List String) :
    Except Err MapInfo :=
  match query with
  | .error e => if e = .einval then newMapInfoFromProc fdinfoLines else .error e
  | .ok info => .ok {
      type := info.map_type, id := info.id, KeySize := info.key_size,
      ValueSize := info.value_size, MaxEntries := info.max_entries,
      Flags := info.map_flags, Name := cString info.name }

/-- Model of `MapInfo.ID`: the identifier with its availability flag,
available exactly when positive. -/
def MapInfo.ID (mi : MapInfo) : Nat × Bool := (mi.id, decide (0 < mi.id))

/-- Statistics sub-record of a program. -/
structure programStats where
  runtime : Nat
  runCount : Nat
  deriving DecidableEq, Repr

/-- Program metadata record.  `ids` is `Option` to keep the Go distinction
between a nil slice (fallback path) and a present, possibly empty one;
`stats` is the optional sub-record. -/
structure ProgramInfo where
  type : Nat
  id : Nat
  Tag : String
  Name : String
  btf : Nat
  ids : Option (List Nat)
  stats : Option programStats
  deriving DecidableEq, Repr

/-- Raw structured record of the program query, the `bpf_prog_info` fields
the code reads, with tag and name as raw byte arrays. -/
structure bpf_prog_info where
  prog_type : Nat
  id : Nat
  tag : List Nat
  name : List Nat
  btf_id : Nat
  nr_map_ids : Nat
  run_time_ns : Nat
  run_cnt : Nat
  deriving DecidableEq, Repr

/-- Lower-case hexadecimal digit. -/
def hexDigit (n : Nat) : Char :=
  if n < 10 then Char.ofNat ('0'.toNat + n) else Char.ofNat ('a'.toNat + (n - 10))

/-- Model of `hex.EncodeToString`: two lower-case digits per byte. -/
def hexEncode (bytes : List Nat) : String :=
  String.mk (bytes.foldr (fun b acc => hexDigit (b % 256 / 16) :: hexDigit (b % 16) :: acc) [])

/-- The field map `newProgramInfoFromProc` hands to the scanner: a numeric
slot for the type and a string slot for the tag. -/
def progFields : Fields := [("prog_type", .num 0), ("prog_tag", .str "")]

/-- Model of `newProgramInfoFromProc`: scan the fdinfo text for type and
tag; the scanner missing-fields condition becomes the unsupported-feature
error with minimum version 4.10.0, every other error propagates.  All other
fields stay at the Go zero values: nil ids, nil stats. -/
def newProgramInfoFromProc (lines : List String) : Except Err ProgramInfo :=
  match scanFdInfoReader lines progFields with
  | .error e =>
    if e = Err.missingFields then
      .error (.unsupported "reading program info from /proc/self/fdinfo" 4 10 0)
    else .error e
  | .ok fs => .ok {
      type := getNum fs "prog_type", id := 0,
      Tag := getStr fs "prog_tag", Name := "",
      btf := 0, ids := none, stats := none }

/-- Transport of the program structured query: from the length of the
caller-provided identifier buffer to a failure or to the raw record together
with the identifiers the kernel wrote into the buffer. -/
abbrev ProgQuery := Nat → Except Err (bpf_prog_info × List Nat)

/-- Contents of a `make([]MapID, len)` buffer after the query wrote
`written` entries into it: the written entries (never beyond the allocated
length) followed by the remaining zero entries. -/
def fillBuf (len : Nat) (written : List Nat) : List Nat :=
  written.take len ++ List.replicate (len - written.length) 0

/-- Outcome of `newProgramInfoFromFd`: a record, a returned error, or a Go
runtime panic from slicing the identifier buffer past its length. -/
inductive ProgOutcome where
  | ok (info : ProgramInfo) : ProgOutcome
  | err (e : Err) : ProgOutcome
  | panic : ProgOutcome
  deriving DecidableEq, Repr

/-- Final record construction of `newProgramInfoFromFd` from the raw record
and the identifier buffer: the slice `mapIds[:info.nr_map_ids]` panics when
the count exceeds the buffer length (length equals capacity here), and
otherwise the record carries the truncated buffer and a stats sub-record. -/
def mkProgramInfo (info : bpf_prog_info) (mapIds : List Nat) : ProgOutcome :=
  if info.nr_map_ids ≤ mapIds.length then
    .ok {
      type := info.prog_type, id := info.id,
      Tag := hexEncode info.tag, Name := cString info.name,
      btf := info.btf_id, ids := some (mapIds.take info.nr_map_ids),
      stats := some { runtime := info.run_time_ns, runCount := info.run_cnt } }
  else .panic

/-- View of the fallback result as an outcome. -/
def outcomeOf : Except Err ProgramInfo → ProgOutcome
  | .ok info => .ok info
  | .error e => .err e

/-- Model of `newProgramInfoFromFd`, instrumented: the second component
records the buffer length passed to each structured query issued, in order
(the control flow is exactly that of the source).  First query with the
default ten-entry buffer; invalid argument selects the fallback, other
failures propagate; when the reported count exceeds ten, one re-query with a
buffer of exactly the reported count, whose failure is fatal; the final
record is built from the last raw record and buffer. -/
def newProgramInfoFromFd (query : ProgQuery) (fdinfoLines : List String) :
    ProgOutcome × List Nat :=
  let defaultNumMaps := 10
  match query defaultNumMaps with
  | .error e =>
    if e = Err.einval then (outcomeOf (newProgramInfoFromProc fdinfoLines), [defaultNumMaps])
    else (.err e, [defaultNumMaps])
  | .ok (info, written) =>
    if info.nr_map_ids > defaultNumMaps then
      match query info.nr_map_ids with
      | .error e2 => (.err e2, [defaultNumMaps, info.nr_map_ids])
      | .ok (info2, written2) =>
        (mkProgramInfo info2 (fillBuf info.nr_map_ids written2),
         [defaultNumMaps, info.nr_map_ids])
    else (mkProgramInfo info (fillBuf defaultNumMaps written), [defaultNumMaps])

/-- Model of `ProgramInfo.ID`: available exactly when positive. -/
def ProgramInfo.ID (pi : ProgramInfo) : Nat × Bool := (pi.id, decide (0 < pi.id))

/-- Model of `ProgramInfo.BTFID`: available exactly when positive. -/
def ProgramInfo.BTFID (pi : ProgramInfo) : Nat × Bool := (pi.btf, decide (0 < pi.btf))

/-- Model of `ProgramInfo.RunCount`: the counter with availability given by
presence of the stats sub-record. -/
def ProgramInfo.RunCount (pi : ProgramInfo) : Nat × Bool :=
  match pi.stats with
  | some s => (s.runCount, true)
  | none => (0, false)

/-- Model of `ProgramInfo.Runtime`: the accumulated runtime with
availability given by presence of the stats sub-record. -/
def ProgramInfo.Runtime (pi : ProgramInfo) : Nat × Bool :=
  match pi.stats with
  | some s => (s.runtime, true)
  | none => (0, false)

/-- Model of `ProgramInfo.MapIDs`: the identifier sequence with availability
given by the slice being non-nil. -/
def ProgramInfo.MapIDs (pi : ProgramInfo) : List Nat × Bool :=
  match pi.ids with
  | some l => (l, true)
  | none => ([], false)

/-- Transport of a kernel whose state does not change between queries: every
query reports the fixed raw record and writes the first `bufLen` of the
fixed identifier list into the buffer. -/
def honestQuery (info : bpf_prog_info) (allIds : List Nat) : ProgQuery :=
  fun bufLen => Except.ok (info, allIds.take bufLen)

/-- Kind of a destination slot: true for a numeric destination, false for a
string destination.  The dynamic scan depends only on this. -/
def kindOf : FieldVal → Bool
  | .num _ => true
  | .str _ => false

/-- Shape of a field map: its keys together with the slot kinds, forgetting
the stored values. -/
def shape (fs : Fields) : List (String × Bool) :=
  fs.map (fun p => (p.1, kindOf p.2))

/-- Whether the scan of one line avoids the fatal parse branch: lines
without a tab and unknown keys are skipped, a known key must parse. -/
def lineParses (fields : Fields) (l : String) : Bool :=
  match splitLine l with
  | none => true
  | some (k, v) =>
    match lookupF fields k with
    | none => true
    | some slot => (sscanln1 slot v).isSome

/-- Keys of requested fields matched by the lines of the stream, with
multiplicity, in stream order: exactly the lines on which the scanner
increments its counter (or fails). -/
def matchedKeys (fields : Fields) (lines : List String) : List String :=
  lines.filterMap (fun l =>
    match splitLine l with
    | none => none
    | some (k, _) => if (lookupF fields k).isSome then some k else none)

theorem fillBuf_length (len : Nat) (written : List Nat) : (fillBuf len written).length = len := by
  simp [fillBuf]
  omega

theorem outcomeOf_ne_panic (x : Except Err ProgramInfo) : outcomeOf x ≠ ProgOutcome.panic := by
  cases x <;> simp [outcomeOf]

/-- C1: each retriever falls back to the fdinfo scan exactly on the
invalid-argument transport failure; any other transport failure is returned
unchanged, with no fallback (the result does not depend on the fdinfo text,
and for programs no further query is issued). -/
theorem fromFd_fallback_iff_einval :
    (∀ lines, newMapInfoFromFd (.error Err.einval) lines = newMapInfoFromProc lines) ∧
    (∀ e lines, e ≠ Err.einval → newMapInfoFromFd (.error e) lines = .error e) ∧
    (∀ query lines, query 10 = .error Err.einval →
      newProgramInfoFromFd query lines = (outcomeOf (newProgramInfoFromProc lines), [10])) ∧
    (∀ query lines e, query 10 = .error e → e ≠ Err.einval →
      newProgramInfoFromFd query lines = (.err e, [10])) := by
  refine ⟨?_, ?_, ?_, ?_⟩
  · intro lines; rfl
  · intro e lines he; simp [newMapInfoFromFd, he]
  · intro query lines hq; simp [newProgramInfoFromFd, hq]
  · intro query lines e hq he; simp [newProgramInfoFromFd, hq, he]

theorem fromFd_fallback_iff_einval_witness :
    newMapInfoFromFd (.error Err.einval) [] = newMapInfoFromProc [] ∧
    newMapInfoFromFd (.error (Err.transport 7)) [] = .error (Err.transport 7) ∧
    newProgramInfoFromFd (fun _ => .error Err.einval) [] =
      (outcomeOf (newProgramInfoFromProc []), [10]) ∧
    newProgramInfoFromFd (fun _ => .error (Err.transport 7)) [] =
      (.err (Err.transport 7), [10]) :=
  ⟨fromFd_fallback_iff_einval.1 [],
   fromFd_fallback_iff_einval.2.1 _ [] (by decide),
   fromFd_fallback_iff_einval.2.2.1 _ [] rfl,
   fromFd_fallback_iff_einval.2.2.2 _ [] _ rfl (by decide)⟩

/-- C5: run count and runtime are unavailable with value zero exactly when
the stats sub-record is absent, and available with the stored counter values
whenever it is present, including zero counters. -/
theorem runCount_runtime_availability (p : ProgramInfo) :
    (p.stats = none → p.RunCount = (0, false) ∧ p.Runtime = (0, false)) ∧
    (∀ s, p.stats = some s → p.RunCount = (s.runCount, true) ∧ p.Runtime = (s.runtime, true)) := by
  constructor
  · intro h; simp [ProgramInfo.RunCount, ProgramInfo.Runtime, h]
  · intro s h; simp [ProgramInfo.RunCount, ProgramInfo.Runtime, h]

theorem runCount_runtime_availability_witness :
    (ProgramInfo.mk 0 0 "" "" 0 none none).RunCount = (0, false) ∧
    (ProgramInfo.mk 0 0 "" "" 0 none none).Runtime = (0, false) ∧
    (ProgramInfo.mk 0 0 "" "" 0 none (some ⟨0, 0⟩)).RunCount = (0, true) ∧
    (ProgramInfo.mk 0 0 "" "" 0 none (some ⟨0, 0⟩)).Runtime = (0, true) := by
  refine ⟨((runCount_runtime_availability _).1 rfl).1,
          ((runCount_runtime_availability _).1 rfl).2, ?_, ?_⟩
  · exact ((runCount_runtime_availability _).2 ⟨0, 0⟩ rfl).1
  · exact ((runCount_runtime_availability _).2 ⟨0, 0⟩ rfl).2

/-- C4: a missing-fields condition from the program fallback scan is
translated into the unsupported-feature error carrying minimum kernel
version 4.10, any other scanner error propagates unchanged, and the map
fallback performs no translation at all. -/
theorem fromProc_error_translation :
    (∀ lines, scanFdInfoReader lines progFields = .error Err.missingFields →
      newProgramInfoFromProc lines =
        .error (.unsupported "reading program info from /proc/self/fdinfo" 4 10 0)) ∧
    (∀ lines e, scanFdInfoReader lines progFields = .error e → e ≠ Err.missingFields →
      newProgramInfoFromProc lines = .error e) ∧
    (∀ lines e, scanFdInfoReader lines mapFields = .error e →
      newMapInfoFromProc lines = .error e) := by
  refine ⟨?_, ?_, ?_⟩
  · intro lines h; simp [newProgramInfoFromProc, h]
  · intro lines e h hne; simp [newProgramInfoFromProc, h, hne]
  · intro lines e h; simp [newMapInfoFromProc, h]

theorem fromProc_error_translation_witness :
    newProgramInfoFromProc [] =
      .error (.unsupported "reading program info from /proc/self/fdinfo" 4 10 0) ∧
    newProgramInfoFromProc ["prog_type:\t3 4"] = .error (Err.parseField "prog_type") ∧
    newMapInfoFromProc [] = .error Err.missingFields := by
  refine ⟨fromProc_error_translation.1 [] rfl, ?_, ?_⟩
  · exact fromProc_error_translation.2.1 ["prog_type:\t3 4"] _ rfl (by decide)
  · exact fromProc_error_translation.2.2 [] _ rfl

/-- C9: the completeness check counts matching lines with multiplicity: a
stream where one requested key appears twice and the other never passes the
check, leaving the absent destination at its zero value, while a stream
holding every requested field plus one duplicate line fails with the
missing-fields condition. -/
theorem scanFdInfoReader_counts_with_multiplicity :
    scanFdInfoReader ["a:\t1", "a:\t2"] [("a", .num 0), ("b", .num 0)] =
      .ok [("a", FieldVal.num 2), ("b", FieldVal.num 0)] ∧
    scanFdInfoReader ["a:\t1", "b:\t2", "a:\t3"] [("a", .num 0), ("b", .num 0)] =
      .error Err.missingFields := by
  constructor <;> rfl

theorem mkProgramInfo_ne_panic (info : bpf_prog_info) (mapIds : List Nat)
    (h : info.nr_map_ids ≤ mapIds.length) : mkProgramInfo info mapIds ≠ ProgOutcome.panic := by
  simp [mkProgramInfo, h]

/-- C10 (amended): the truncating slice of the identifier buffer stays
within the buffer provided the count reported by the final structured query
does not exceed the count reported by the first, which sized the buffer;
without that monotonicity the retriever panics (see the counterexample). -/
theorem progInfo_slice_within_buffer (query : ProgQuery) (lines : List String)
    (h : ∀ r1 w1 r2 w2, query 10 = .ok (r1, w1) → query r1.nr_map_ids = .ok (r2, w2) →
      r2.nr_map_ids ≤ r1.nr_map_ids) :
    (newProgramInfoFromFd query lines).1 ≠ ProgOutcome.panic := by
  unfold newProgramInfoFromFd
  dsimp only
  split
  next e heq =>
    split
    · exact fun hc => outcomeOf_ne_panic _ (by simpa using hc)
    · simp
  next p info written heq =>
    by_cases hgt : info.nr_map_ids > 10
    · simp only [if_pos hgt]
      split
      next e2 heq2 => simp
      next p2 info2 written2 heq2 =>
        have hle := h info written info2 written2 heq heq2
        have hlen : info2.nr_map_ids ≤ (fillBuf info.nr_map_ids written2).length := by
          rw [fillBuf_length]
          exact hle
        have := mkProgramInfo_ne_panic info2 (fillBuf info.nr_map_ids written2) hlen
        simpa using this
    · simp only [if_neg hgt]
      have hle : info.nr_map_ids ≤ 10 := by omega
      have hlen : info.nr_map_ids ≤ (fillBuf 10 written).length := by
        rw [fillBuf_length]
        exact hle
      have := mkProgramInfo_ne_panic info (fillBuf 10 written) hlen
      simpa using this

/-- C10 counterexample: a transport whose second query reports one more
related identifier than the first makes the final slice reach past the
buffer length, a Go runtime panic: the claimed bound fails for this pair of
successive query results. -/
theorem progInfo_slice_past_buffer_cex :
    (newProgramInfoFromFd
      (fun len =>
        if len = 10 then
          Except.ok ({ prog_type := 1, id := 2, tag := [], name := [], btf_id := 0,
                       nr_map_ids := 11, run_time_ns := 0, run_cnt := 0 }, List.replicate 10 7)
        else
          Except.ok ({ prog_type := 1, id := 2, tag := [], name := [], btf_id := 0,
                       nr_map_ids := 12, run_time_ns := 0, run_cnt := 0 }, List.replicate 11 7))
      []).1 = ProgOutcome.panic := by
  rfl

theorem progInfo_slice_within_buffer_witness :
    (newProgramInfoFromFd
      (honestQuery
        { prog_type := 1, id := 2, tag := [3], name := [], btf_id := 0,
          nr_map_ids := 12, run_time_ns := 0, run_cnt := 0 }
        (List.range 12)) []).1 ≠ ProgOutcome.panic := by
  apply progInfo_slice_within_buffer
  intro r1 w1 r2 w2 h1 h2
  simp only [honestQuery, Except.ok.injEq, Prod.mk.injEq] at h1 h2
  obtain ⟨hr1, -⟩ := h1
  obtain ⟨hr2, -⟩ := h2
  rw [← hr1, ← hr2]

theorem mkProgramInfo_ok (info : bpf_prog_info) (mapIds : List Nat)
    (h : info.nr_map_ids ≤ mapIds.length) :
    mkProgramInfo info mapIds = ProgOutcome.ok
      { type := info.prog_type, id := info.id, Tag := hexEncode info.tag,
        Name := cString info.name, btf := info.btf_id,
        ids := some (mapIds.take info.nr_map_ids),
        stats := some { runtime := info.run_time_ns, runCount := info.run_cnt } } := by
  simp [mkProgramInfo, h]

theorem honestQuery_run (info : bpf_prog_info) (allIds : List Nat) (lines : List String)
    (h : info.nr_map_ids = allIds.length) :
    newProgramInfoFromFd (honestQuery info allIds) lines =
      (ProgOutcome.ok
        { type := info.prog_type, id := info.id, Tag := hexEncode info.tag,
          Name := cString info.name, btf := info.btf_id, ids := some allIds,
          stats := some { runtime := info.run_time_ns, runCount := info.run_cnt } },
       if 10 < allIds.length then [10, allIds.length] else [10]) := by
  by_cases hlen : 10 < allIds.length
  · have hfill : fillBuf allIds.length (allIds.take allIds.length) = allIds := by
      simp [fillBuf]
    have hok := mkProgramInfo_ok info allIds (by omega)
    simp only [newProgramInfoFromFd, honestQuery, h, gt_iff_lt, if_pos hlen, hfill, hok]
    simp [h]
  · have hle10 : allIds.length ≤ 10 := by omega
    have htake : allIds.take 10 = allIds := List.take_of_length_le hle10
    have hfill : fillBuf 10 (allIds.take 10) = allIds ++ List.replicate (10 - allIds.length) 0 := by
      simp [fillBuf, htake]
    have hok := mkProgramInfo_ok info (allIds ++ List.replicate (10 - allIds.length) 0)
      (by simp [h])
    simp only [newProgramInfoFromFd, honestQuery, h, gt_iff_lt, if_neg hlen, hfill, hok]
    simp [h, List.take_left' rfl]

/-- C2: when the first structured query reports a related-identifier count
above the default capacity of ten, the retriever issues exactly one more
query (buffer lengths [10, count]) with a buffer sized exactly to the
reported count, and on a consistent transport the returned identifier
sequence is exactly the full list of that count, untruncated; a failure of
the second query is returned as a fatal error. -/
theorem progInfo_resize_requery :
    (∀ info allIds lines, info.nr_map_ids = allIds.length → 10 < allIds.length →
      newProgramInfoFromFd (honestQuery info allIds) lines =
        (ProgOutcome.ok
          { type := info.prog_type, id := info.id, Tag := hexEncode info.tag,
            Name := cString info.name, btf := info.btf_id, ids := some allIds,
            stats := some { runtime := info.run_time_ns, runCount := info.run_cnt } },
         [10, allIds.length])) ∧
    (∀ query lines r w e, query 10 = .ok (r, w) → 10 < r.nr_map_ids →
      query r.nr_map_ids = .error e →
      newProgramInfoFromFd query lines = (.err e, [10, r.nr_map_ids])) := by
  constructor
  · intro info allIds lines h hlen
    rw [honestQuery_run info allIds lines h, if_pos hlen]
  · intro query lines r w e hq hgt hq2
    simp [newProgramInfoFromFd, hq, hq2, hgt]

theorem progInfo_resize_requery_witness :
    newProgramInfoFromFd
      (honestQuery
        { prog_type := 9, id := 4, tag := [3], name := [], btf_id := 0,
          nr_map_ids := 12, run_time_ns := 8, run_cnt := 2 } (List.range 12)) [] =
      (ProgOutcome.ok
        { type := 9, id := 4, Tag := hexEncode [3], Name := cString [],
          btf := 0, ids := some (List.range 12),
          stats := some { runtime := 8, runCount := 2 } },
       [10, 12]) ∧
    newProgramInfoFromFd
      (fun len =>
        if len = 10 then
          Except.ok ({ prog_type := 9, id := 4, tag := [3], name := [], btf_id := 0,
                       nr_map_ids := 11, run_time_ns := 8, run_cnt := 2 },
                     List.replicate 10 7)
        else .error (Err.transport 3)) [] =
      (.err (Err.transport 3), [10, 11]) := by
  constructor
  · exact progInfo_resize_requery.1 _ (List.range 12) [] (by simp) (by simp)
  · exact progInfo_resize_requery.2 _ []
      { prog_type := 9, id := 4, tag := [3], name := [], btf_id := 0,
        nr_map_ids := 11, run_time_ns := 8, run_cnt := 2 }
      (List.replicate 10 7) _ rfl (by decide) rfl

/-- C6: constructing a ProgramInfo through the structured path from a raw
record served by a consistent transport and reading it back through the
accessors yields exactly the record values: type, identifier with its
positivity flag, hex-encoded tag, C-string name, BTF identifier with its
positivity flag, the full identifier sequence marked available, and both
stats counters marked available. -/
theorem programInfo_structured_roundtrip (info : bpf_prog_info) (allIds : List Nat)
    (lines : List String) (h : info.nr_map_ids = allIds.length) :
    (newProgramInfoFromFd (honestQuery info allIds) lines).1 =
      ProgOutcome.ok
        (ProgramInfo.mk info.prog_type info.id (hexEncode info.tag) (cString info.name)
          info.btf_id (some allIds) (some ⟨info.run_time_ns, info.run_cnt⟩)) ∧
    (ProgramInfo.mk info.prog_type info.id (hexEncode info.tag) (cString info.name)
        info.btf_id (some allIds) (some ⟨info.run_time_ns, info.run_cnt⟩)).type =
      info.prog_type ∧
    (ProgramInfo.mk info.prog_type info.id (hexEncode info.tag) (cString info.name)
        info.btf_id (some allIds) (some ⟨info.run_time_ns, info.run_cnt⟩)).ID =
      (info.id, decide (0 < info.id)) ∧
    (ProgramInfo.mk info.prog_type info.id (hexEncode info.tag) (cString info.name)
        info.btf_id (some allIds) (some ⟨info.run_time_ns, info.run_cnt⟩)).Tag =
      hexEncode info.tag ∧
    (ProgramInfo.mk info.prog_type info.id (hexEncode info.tag) (cString info.name)
        info.btf_id (some allIds) (some ⟨info.run_time_ns, info.run_cnt⟩)).Name =
      cString info.name ∧
    (ProgramInfo.mk info.prog_type info.id (hexEncode info.tag) (cString info.name)
        info.btf_id (some allIds) (some ⟨info.run_time_ns, info.run_cnt⟩)).BTFID =
      (info.btf_id, decide (0 < info.btf_id)) ∧
    (ProgramInfo.mk info.prog_type info.id (hexEncode info.tag) (cString info.name)
        info.btf_id (some allIds) (some ⟨info.run_time_ns, info.run_cnt⟩)).MapIDs =
      (allIds, true) ∧
    (ProgramInfo.mk info.prog_type info.id (hexEncode info.tag) (cString info.name)
        info.btf_id (some allIds) (some ⟨info.run_time_ns, info.run_cnt⟩)).RunCount =
      (info.run_cnt, true) ∧
    (ProgramInfo.mk info.prog_type info.id (hexEncode info.tag) (cString info.name)
        info.btf_id (some allIds) (some ⟨info.run_time_ns, info.run_cnt⟩)).Runtime =
      (info.run_time_ns, true) := by
  refine ⟨?_, rfl, rfl, rfl, rfl, rfl, rfl, rfl, rfl⟩
  rw [honestQuery_run info allIds lines h]

theorem programInfo_structured_roundtrip_witness :
    (newProgramInfoFromFd
      (honestQuery
        { prog_type := 2, id := 0, tag := [171, 205], name := [104, 105, 0, 122],
          btf_id := 7, nr_map_ids := 3, run_time_ns := 0, run_cnt := 5 } [4, 5, 6]) []).1 =
      ProgOutcome.ok (ProgramInfo.mk 2 0 "abcd" "hi" 7 (some [4, 5, 6]) (some ⟨0, 5⟩)) ∧
    (ProgramInfo.mk 2 0 "abcd" "hi" 7 (some [4, 5, 6]) (some ⟨0, 5⟩)).type = 2 ∧
    (ProgramInfo.mk 2 0 "abcd" "hi" 7 (some [4, 5, 6]) (some ⟨0, 5⟩)).ID = (0, false) ∧
    (ProgramInfo.mk 2 0 "abcd" "hi" 7 (some [4, 5, 6]) (some ⟨0, 5⟩)).Tag = "abcd" ∧
    (ProgramInfo.mk 2 0 "abcd" "hi" 7 (some [4, 5, 6]) (some ⟨0, 5⟩)).Name = "hi" ∧
    (ProgramInfo.mk 2 0 "abcd" "hi" 7 (some [4, 5, 6]) (some ⟨0, 5⟩)).BTFID = (7, true) ∧
    (ProgramInfo.mk 2 0 "abcd" "hi" 7 (some [4, 5, 6]) (some ⟨0, 5⟩)).MapIDs =
      ([4, 5, 6], true) ∧
    (ProgramInfo.mk 2 0 "abcd" "hi" 7 (some [4, 5, 6]) (some ⟨0, 5⟩)).RunCount = (5, true) ∧
    (ProgramInfo.mk 2 0 "abcd" "hi" 7 (some [4, 5, 6]) (some ⟨0, 5⟩)).Runtime = (0, true) := by
  have := programInfo_structured_roundtrip
    { prog_type := 2, id := 0, tag := [171, 205], name := [104, 105, 0, 122],
      btf_id := 7, nr_map_ids := 3, run_time_ns := 0, run_cnt := 5 } [4, 5, 6] [] rfl
  exact this

/-- C8: every successful fallback retrieval of table metadata reports the
identifier as unavailable and an empty name, and the example fdinfo text
parses to exactly type 1, key size 4, value size 8, max entries 1024 and
flags 0. -/
theorem mapInfoFromProc_fallback (lines : List String) :
    (∀ mi, newMapInfoFromProc lines = .ok mi → mi.ID = (0, false) ∧ mi.Name = "") ∧
    newMapInfoFromProc
      (toLines "map_type:\t1\nkey_size:\t4\nvalue_size:\t8\nmax_entries:\t1024\nmap_flags:\t0\n") =
      .ok { type := 1, id := 0, KeySize := 4, ValueSize := 8, MaxEntries := 1024,
            Flags := 0, Name := "" } := by
  constructor
  · intro mi h
    cases hs : scanFdInfoReader lines mapFields with
    | error e => simp [newMapInfoFromProc, hs] at h
    | ok fs =>
      simp only [newMapInfoFromProc, hs, Except.ok.injEq] at h
      rw [← h]
      exact ⟨rfl, rfl⟩
  · rfl

theorem mapInfoFromProc_fallback_witness :
    (MapInfo.mk 1 0 4 8 1024 0 "").ID = (0, false) ∧
    (MapInfo.mk 1 0 4 8 1024 0 "").Name = "" :=
  (mapInfoFromProc_fallback
    (toLines "map_type:\t1\nkey_size:\t4\nvalue_size:\t8\nmax_entries:\t1024\nmap_flags:\t0\n")).1
    _ (mapInfoFromProc_fallback []).2

theorem kindOf_sscanln1 {slot w : FieldVal} {v : String} (h : sscanln1 slot v = some w) :
    kindOf w = kindOf slot := by
  cases slot with
  | num n =>
    simp only [sscanln1, Option.map_eq_some'] at h
    obtain ⟨x, -, rfl⟩ := h
    rfl
  | str s =>
    simp only [sscanln1, Option.map_eq_some'] at h
    obtain ⟨x, -, rfl⟩ := h
    rfl

theorem sscanln1_isSome_of_kind {s s' : FieldVal} (v : String) (h : kindOf s = kindOf s') :
    (sscanln1 s v).isSome = (sscanln1 s' v).isSome := by
  cases s <;> cases s' <;> simp [kindOf] at h ⊢ <;> simp [sscanln1]

theorem shape_keys (fs : Fields) : (shape fs).map Prod.fst = fs.map Prod.fst := by
  simp [shape, List.map_map]

theorem lookupF_kind_of_shape {fs fs' : Fields} (h : shape fs = shape fs') (k : String) :
    (lookupF fs k).map kindOf = (lookupF fs' k).map kindOf := by
  induction fs generalizing fs' with
  | nil =>
    cases fs' with
    | nil => rfl
    | cons b t => simp [shape] at h
  | cons a t ih =>
    cases fs' with
    | nil => simp [shape] at h
    | cons b t' =>
      simp only [shape, List.map_cons, List.cons.injEq, Prod.mk.injEq] at h
      obtain ⟨⟨hk, hv⟩, ht⟩ := h
      by_cases hek : a.1 = k
      · rw [lookupF, lookupF, if_pos hek, if_pos (hk ▸ hek)]
        simp [hv]
      · rw [lookupF, lookupF, if_neg hek, if_neg (hk ▸ hek)]
        exact ih ht

theorem updateF_not_mem (fs : Fields) (k : String) (w : FieldVal)
    (h : k ∉ fs.map Prod.fst) : updateF fs k w = fs := by
  induction fs with
  | nil => rfl
  | cons a t ih =>
    simp only [List.map_cons, List.mem_cons, not_or] at h
    simp only [updateF, List.map_cons]
    rw [if_neg (fun he => h.1 he.symm)]
    have := ih h.2
    simp only [updateF] at this
    rw [this]

theorem shape_updateF {fs : Fields} {k : String} {slot w : FieldVal}
    (hnd : (fs.map Prod.fst).Nodup)
    (hl : lookupF fs k = some slot) (hk : kindOf w = kindOf slot) :
    shape (updateF fs k w) = shape fs := by
  induction fs with
  | nil => simp [lookupF] at hl
  | cons a t ih =>
    simp only [List.map_cons, List.nodup_cons] at hnd
    by_cases hek : a.1 = k
    · rw [lookupF, if_pos hek] at hl
      have hslot : a.2 = slot := by injection hl
      have hnot : k ∉ t.map Prod.fst := hek ▸ hnd.1
      simp only [updateF, List.map_cons, if_pos hek]
      have ht := updateF_not_mem t k w hnot
      simp only [updateF] at ht
      rw [ht]
      simp only [shape, List.map_cons]
      rw [hk, hslot]
    · rw [lookupF, if_neg hek] at hl
      simp only [updateF, List.map_cons, if_neg hek]
      have := ih hnd.2 hl
      simp only [updateF] at this
      simp only [shape, List.map_cons] at this ⊢
      rw [this]

theorem lookupF_isSome_mem {fs : Fields} {k : String} (h : (lookupF fs k).isSome) :
    k ∈ fs.map Prod.fst := by
  induction fs with
  | nil => simp [lookupF] at h
  | cons a t ih =>
    by_cases hek : a.1 = k
    · simp [hek]
    · rw [lookupF, if_neg hek] at h
      simp [ih h]

theorem matchedKeys_cons_none {fields : Fields} {l : String} (rest : List String)
    (h : splitLine l = none) :
    matchedKeys fields (l :: rest) = matchedKeys fields rest := by
  simp [matchedKeys, List.filterMap_cons, h]

theorem matchedKeys_cons_nomatch {fields : Fields} {l k v : String} (rest : List String)
    (h : splitLine l = some (k, v)) (h2 : lookupF fields k = none) :
    matchedKeys fields (l :: rest) = matchedKeys fields rest := by
  simp [matchedKeys, List.filterMap_cons, h, h2]

theorem matchedKeys_cons_match {fields : Fields} {l k v : String} (rest : List String)
    (h : splitLine l = some (k, v)) (h2 : (lookupF fields k).isSome) :
    matchedKeys fields (l :: rest) = k :: matchedKeys fields rest := by
  simp [matchedKeys, List.filterMap_cons, h, h2]

theorem scanLines_all_parse (fields : Fields) (hnd : (fields.map Prod.fst).Nodup)
    (lines : List String) :
    ∀ (fs : Fields) (n : Nat), shape fs = shape fields →
      lines.all (lineParses fields) = true →
      ∃ fs2, shape fs2 = shape fields ∧
        scanLines lines fs n = .ok (fs2, n + (matchedKeys fields lines).length) := by
  induction lines with
  | nil =>
    intro fs n hsh _
    exact ⟨fs, hsh, by simp [scanLines, matchedKeys]⟩
  | cons l rest ih =>
    intro fs n hsh hall
    simp only [List.all_cons, Bool.and_eq_true] at hall
    obtain ⟨hl, hrest⟩ := hall
    have hkmap := lookupF_kind_of_shape hsh
    cases hsp : splitLine l with
    | none =>
      obtain ⟨fs2, hsh2, hrun⟩ := ih fs n hsh hrest
      refine ⟨fs2, hsh2, ?_⟩
      rw [matchedKeys_cons_none rest hsp]
      simpa [scanLines, hsp] using hrun
    | some kv =>
      obtain ⟨k, v⟩ := kv
      cases hlf : lookupF fs k with
      | none =>
        have hff : lookupF fields k = none := by
          have := hkmap k
          rw [hlf] at this
          exact Option.map_eq_none'.mp this.symm
        obtain ⟨fs2, hsh2, hrun⟩ := ih fs n hsh hrest
        refine ⟨fs2, hsh2, ?_⟩
        rw [matchedKeys_cons_nomatch rest hsp hff]
        simpa [scanLines, hsp, hlf] using hrun
      | some slot =>
        have hkm := hkmap k
        rw [hlf] at hkm
        cases hff : lookupF fields k with
        | none => rw [hff] at hkm; simp at hkm
        | some slotf =>
          rw [hff] at hkm
          simp only [Option.map_some', Option.some.injEq] at hkm
          have hparse : (sscanln1 slotf v).isSome = true := by
            simpa only [lineParses, hsp, hff] using hl
          have hsome : (sscanln1 slot v).isSome = true := by
            rw [sscanln1_isSome_of_kind v hkm]
            exact hparse
          obtain ⟨w, hw⟩ := Option.isSome_iff_exists.mp hsome
          have hknd : kindOf w = kindOf slot := kindOf_sscanln1 hw
          have hkeys : fs.map Prod.fst = fields.map Prod.fst := by
            have := congrArg (List.map Prod.fst) hsh
            rwa [shape_keys, shape_keys] at this
          have hndfs : (fs.map Prod.fst).Nodup := hkeys ▸ hnd
          have hshu : shape (updateF fs k w) = shape fields := by
            rw [shape_updateF hndfs hlf hknd]
            exact hsh
          obtain ⟨fs2, hsh2, hrun⟩ := ih (updateF fs k w) (n + 1) hshu hrest
          refine ⟨fs2, hsh2, ?_⟩
          rw [matchedKeys_cons_match rest hsp (by rw [hff]; rfl)]
          have hstep : scanLines (l :: rest) fs n = scanLines rest (updateF fs k w) (n + 1) := by
            simp [scanLines, hsp, hlf, hw]
          rw [hstep, hrun]
          simp only [List.length_cons, Except.ok.injEq, Prod.mk.injEq]
          exact ⟨by trivial, by omega⟩

theorem matchedKeys_mem_keys {fields : Fields} {lines : List String} {x : String}
    (h : x ∈ matchedKeys fields lines) : x ∈ fields.map Prod.fst := by
  rw [matchedKeys, List.mem_filterMap] at h
  obtain ⟨l, -, hfx⟩ := h
  cases hsp : splitLine l with
  | none => rw [hsp] at hfx; simp at hfx
  | some kv =>
    obtain ⟨k, v⟩ := kv
    rw [hsp] at hfx
    by_cases hs : (lookupF fields k).isSome
    · simp only [hs, if_true, Option.some.injEq] at hfx
      exact hfx ▸ lookupF_isSome_mem hs
    · simp [hs] at hfx

/-- C3 (amended): over a stream in which at least one requested field name
is never matched, no requested field is matched on more than one line, and
every line whose key is a requested field has a well-formed value, the
scanner fails with the missing-fields condition (hence never with a parse
error); lines without a tab and unknown keys are skipped.  The multiplicity
counterexample shows the duplicate-free hypothesis is needed. -/
theorem scanner_missing_field_missingFields (lines : List String) (fields : Fields)
    (hnd : (fields.map Prod.fst).Nodup)
    (hmiss : ∃ m ∈ fields.map Prod.fst, m ∉ matchedKeys fields lines)
    (hdup : (matchedKeys fields lines).Nodup)
    (hall : lines.all (lineParses fields) = true) :
    scanFdInfoReader lines fields = .error Err.missingFields := by
  obtain ⟨fs2, -, hrun⟩ := scanLines_all_parse fields hnd lines fields 0 rfl hall
  obtain ⟨m, hm, hnotin⟩ := hmiss
  have hsub : matchedKeys fields lines ⊆ (fields.map Prod.fst).erase m := by
    intro x hx
    have hxk : x ∈ fields.map Prod.fst := matchedKeys_mem_keys hx
    have hxm : x ≠ m := fun he => hnotin (he ▸ hx)
    exact (List.mem_erase_of_ne hxm).mpr hxk
  have hlen : (matchedKeys fields lines).length ≤ ((fields.map Prod.fst).erase m).length :=
    (List.subperm_of_subset hdup hsub).length_le
  have hlt : (matchedKeys fields lines).length < fields.length := by
    rw [List.length_erase_of_mem hm] at hlen
    have hpos : 0 < (fields.map Prod.fst).length :=
      List.length_pos.mpr (List.ne_nil_of_mem hm)
    rw [List.length_map] at hlen hpos
    omega
  simp only [scanFdInfoReader, hrun]
  rw [if_neg (by omega)]

/-- C3 counterexample: a stream in which the requested field y never
appears and every appearing field has a well-formed value, yet the scan
succeeds, because the duplicated x lines satisfy the completeness count;
the claim as stated demands the missing-fields failure here. -/
theorem scanner_missing_field_cex :
    scanFdInfoReader ["x:\t1", "x:\t2"] [("x", .num 0), ("y", .num 0)] =
      .ok [("x", FieldVal.num 2), ("y", FieldVal.num 0)] ∧
    "y" ∈ List.map Prod.fst [("x", FieldVal.num 0), ("y", FieldVal.num 0)] ∧
    "y" ∉ matchedKeys [("x", FieldVal.num 0), ("y", FieldVal.num 0)] ["x:\t1", "x:\t2"] ∧
    (["x:\t1", "x:\t2"].all (lineParses [("x", FieldVal.num 0), ("y", FieldVal.num 0)])) =
      true := by
  refine ⟨rfl, by decide, by decide, rfl⟩

theorem scanner_missing_field_missingFields_witness :
    scanFdInfoReader ["x:\t1"] [("x", FieldVal.num 0), ("y", FieldVal.num 0)] =
      .error Err.missingFields :=
  scanner_missing_field_missingFields ["x:\t1"] _ (by decide)
    ⟨"y", by decide, by decide⟩ (by decide) (by decide)

theorem takeWhile_append_all (p : Char → Bool) (l1 l2 : List Char) (h : l1.all p = true) :
    (l1 ++ l2).takeWhile p = l1 ++ l2.takeWhile p := by
  induction l1 with
  | nil => rfl
  | cons a t ih =>
    simp only [List.all_cons, Bool.and_eq_true] at h
    simp [List.takeWhile_cons, h.1, ih h.2]

theorem dropWhile_append_all (p : Char → Bool) (l1 l2 : List Char) (h : l1.all p = true) :
    (l1 ++ l2).dropWhile p = l2.dropWhile p := by
  induction l1 with
  | nil => rfl
  | cons a t ih =>
    simp only [List.all_cons, Bool.and_eq_true] at h
    simp [List.dropWhile_cons, h.1, ih h.2]

theorem takeWhile_stop_all (p : Char → Bool) (l : List Char) (h : l.all p = true) :
    l.takeWhile (fun c => !p c) = [] := by
  cases l with
  | nil => rfl
  | cons a t =>
    simp only [List.all_cons, Bool.and_eq_true] at h
    simp [List.takeWhile_cons, h.1]

theorem dropWhile_stop_all (p : Char → Bool) (l : List Char) (h : l.all p = true) :
    l.dropWhile (fun c => !p c) = l := by
  cases l with
  | nil => rfl
  | cons a t =>
    simp only [List.all_cons, Bool.and_eq_true] at h
    simp [List.dropWhile_cons, h.1]

theorem contains_tab_append (l1 l2 : List Char) : (l1 ++ '\t' :: l2).contains '\t' = true := by
  induction l1 with
  | nil => simp
  | cons a t ih => simp [ih]

theorem splitLine_mkLine (k : String) (cs : List Char)
    (hk : k.data.all (fun c => c != '\t') = true) :
    splitLine (String.mk (k.data ++ ':' :: '\t' :: cs)) = some (k, String.mk cs) := by
  have hcont : (k.data ++ ':' :: '\t' :: cs).contains '\t' = true := by
    have h0 := contains_tab_append (k.data ++ [':']) cs
    rwa [List.append_assoc] at h0
  have htake : (k.data ++ ':' :: '\t' :: cs).takeWhile (fun c => c != '\t') =
      k.data ++ [':'] := by
    rw [takeWhile_append_all _ _ _ hk]
    simp [List.takeWhile_cons]
  have hdrop : (k.data ++ ':' :: '\t' :: cs).dropWhile (fun c => c != '\t') = '\t' :: cs := by
    rw [dropWhile_append_all _ _ _ hk]
    simp [List.dropWhile_cons]
  have htrim : trimColon (String.mk (k.data ++ [':'])) = k := by
    rw [trimColon]
    rw [if_pos (by simp [List.getLast?_concat])]
    simp only [List.dropLast_concat]
  simp only [splitLine, splitFirstTab]
  rw [if_pos hcont, htake, hdrop]
  simp only [List.tail_cons, Option.some.injEq, Prod.mk.injEq]
  exact ⟨htrim, trivial⟩

/-- C7 (amended): the scanner parses only the first whitespace-separated
token of the value side into the slot, skipping leading space and accepting
trailing space, but a second whitespace-separated token after the first
causes a parse error naming the field rather than being ignored; on a line
whose key is the requested field, a failing value scan yields exactly the
parse-error result and a successful one stores the scanned token. -/
theorem sscanln_first_token_only :
    (∀ sp1 tok sp2 : List Char, sp1.all isScanSpace = true → tok ≠ [] →
      tok.all (fun c => !isScanSpace c) = true → sp2.all isScanSpace = true →
      sscanlnStr (sp1 ++ tok ++ sp2) = some (String.mk tok)) ∧
    (∀ (sp1 tok : List Char) (c : Char) (t2 : List Char),
      sp1.all isScanSpace = true → tok ≠ [] → tok.all (fun c => !isScanSpace c) = true →
      isScanSpace c = true → t2.any (fun x => !isScanSpace x) = true →
      sscanlnStr (sp1 ++ tok ++ c :: t2) = none) ∧
    (∀ (k : String) (slot : FieldVal) (cs : List Char),
      k.data.all (fun c => c != '\t') = true →
      (sscanln1 slot (String.mk cs) = none →
        scanFdInfoReader [String.mk (k.data ++ ':' :: '\t' :: cs)] [(k, slot)] =
          .error (.parseField k)) ∧
      (∀ w, sscanln1 slot (String.mk cs) = some w →
        scanFdInfoReader [String.mk (k.data ++ ':' :: '\t' :: cs)] [(k, slot)] =
          .ok [(k, w)])) := by
  refine ⟨?_, ?_, ?_⟩
  · intro sp1 tok sp2 hsp1 htne htok hsp2
    obtain ⟨c0, t0, rfl⟩ : ∃ c0 t0, tok = c0 :: t0 := by
      cases tok with
      | nil => exact absurd rfl htne
      | cons a b => exact ⟨a, b, rfl⟩
    have hc0 : isScanSpace c0 = false := by
      simp only [List.all_cons, Bool.and_eq_true] at htok
      simpa using htok.1
    have e1 : (sp1 ++ (c0 :: t0) ++ sp2).dropWhile isScanSpace = (c0 :: t0) ++ sp2 := by
      rw [List.append_assoc, dropWhile_append_all _ _ _ hsp1]
      simp [List.dropWhile_cons, hc0]
    have e2 : ((c0 :: t0) ++ sp2).takeWhile (fun c => !isScanSpace c) = c0 :: t0 := by
      rw [takeWhile_append_all _ _ _ htok, takeWhile_stop_all _ _ hsp2, List.append_nil]
    have e3 : ((c0 :: t0) ++ sp2).dropWhile (fun c => !isScanSpace c) = sp2 := by
      rw [dropWhile_append_all _ _ _ htok, dropWhile_stop_all _ _ hsp2]
    simp only [sscanlnStr, e1, e2, e3]
    simp [hsp2]
  · intro sp1 tok c t2 hsp1 htne htok hc hj
    obtain ⟨c0, t0, rfl⟩ : ∃ c0 t0, tok = c0 :: t0 := by
      cases tok with
      | nil => exact absurd rfl htne
      | cons a b => exact ⟨a, b, rfl⟩
    have hc0 : isScanSpace c0 = false := by
      simp only [List.all_cons, Bool.and_eq_true] at htok
      simpa using htok.1
    have e1 : (sp1 ++ (c0 :: t0) ++ c :: t2).dropWhile isScanSpace = (c0 :: t0) ++ c :: t2 := by
      rw [List.append_assoc, dropWhile_append_all _ _ _ hsp1]
      simp [List.dropWhile_cons, hc0]
    have e2 : ((c0 :: t0) ++ c :: t2).takeWhile (fun x => !isScanSpace x) = c0 :: t0 := by
      rw [takeWhile_append_all _ _ _ htok]
      simp [List.takeWhile_cons, hc]
    have e3 : ((c0 :: t0) ++ c :: t2).dropWhile (fun x => !isScanSpace x) = c :: t2 := by
      rw [dropWhile_append_all _ _ _ htok]
      simp [List.dropWhile_cons, hc]
    have hfalse : (c :: t2).all isScanSpace = false := by
      rcases List.any_eq_true.mp hj with ⟨x, hx, hnx⟩
      cases hall2 : (c :: t2).all isScanSpace with
      | false => rfl
      | true =>
        have hxs := List.all_eq_true.mp hall2 x (List.mem_cons_of_mem c hx)
        simp [hxs] at hnx
    simp only [sscanlnStr, e1, e2, e3]
    simp [hfalse]
  · intro k slot cs hk
    have hsp := splitLine_mkLine k cs hk
    constructor
    · intro hnone
      simp [scanFdInfoReader, scanLines, hsp, lookupF, hnone]
    · intro w hsome
      simp [scanFdInfoReader, scanLines, hsp, lookupF, hsome, updateF]

/-- C7 counterexample: a value side carrying a second whitespace-separated
token is not ignored: the scan of such a line fails with a parse error
naming the field, for a string and for a numeric destination alike. -/
theorem sscanln_extra_token_cex :
    scanFdInfoReader ["prog_tag:\tabcd efgh"] [("prog_tag", FieldVal.str "")] =
      .error (.parseField "prog_tag") ∧
    scanFdInfoReader ["key_size:\t4 5"] [("key_size", FieldVal.num 0)] =
      .error (.parseField "key_size") := ⟨rfl, rfl⟩

theorem sscanln_first_token_only_witness :
    sscanlnStr ([' '] ++ ['a', 'b'] ++ [' ']) = some (String.mk ['a', 'b']) ∧
    sscanlnStr ([' '] ++ ['a', 'b'] ++ ' ' :: ['c']) = none ∧
    scanFdInfoReader [String.mk ("tag".data ++ ':' :: '\t' :: "x y".data)]
      [("tag", FieldVal.str "")] = .error (.parseField "tag") := by
  refine ⟨?_, ?_, ?_⟩
  · exact sscanln_first_token_only.1 [' '] ['a', 'b'] [' ']
      (by decide) (by decide) (by decide) (by decide)
  · exact sscanln_first_token_only.2.1 [' '] ['a', 'b'] ' ' ['c']
      (by decide) (by decide) (by decide) (by decide) (by decide)
  · exact (sscanln_first_token_only.2.2 "tag" (FieldVal.str "") "x y".data (by decide)).1 rfl
